import Mathlib

/-!
Verification of the ThoughtSwap real-time session server
(`packages/server/src/index.ts`, current revision, together with the earlier
revision of the same file kept in the repository history).

The definitions below are shallow embeddings of the server's functions and
event handlers.  Randomness (`Math.random()`) is modelled by an explicit
choice function `js : Nat → Nat`; a JavaScript draw
`Math.floor(Math.random() * n)` is embedded as `js i % n`, which reaches
exactly the values `0 … n-1` the source can produce.  The in-memory
`roomAssignments` record is modelled as a finite map
(`String → Option _`), and database tables as lists of rows.
-/

namespace ThoughtSwap

/-- A thought as fetched for `TRIGGER_SWAP`:
`thoughts.map(t => ({content, authorId, authorName: t.author.name}))`. -/
structure ThoughtIn where
  content : String
  authorId : String
  authorName : String
deriving DecidableEq, Repr

/-- The per-recipient record built by `shuffleThoughts`:
`{content, authorId, originalAuthorName}`. -/
structure Assigned where
  content : String
  authorId : String
  originalAuthorName : String
deriving DecidableEq, Repr

/-- `{content: thought.content, authorId: thought.authorId,
originalAuthorName: thought.authorName}` (server `shuffleThoughts`, assignment
loop). -/
def ThoughtIn.toAssigned (t : ThoughtIn) : Assigned :=
  ⟨t.content, t.authorId, t.authorName⟩

/-- One array-element swap:
`const temp = pool[i]; pool[i] = pool[j]; pool[j] = temp;`.
Out-of-bounds indices leave the list unchanged (in the source both indices
are always in bounds). -/
def swapIdx (l : List α) (i j : Nat) : List α :=
  match l[i]?, l[j]? with
  | some a, some b => (l.set i b).set j a
  | some _, none => l
  | none, _ => l

/-- One iteration of the Fisher-Yates loop body at index `i`:
`const j = Math.floor(Math.random() * (i + 1));` then swap positions `i`,`j`. -/
def fyStep (js : Nat → Nat) (pool : List α) (i : Nat) : List α :=
  swapIdx pool i (js i % (i + 1))

/-- The Fisher-Yates loop `for (let i = pool.length - 1; i > 0; i--)`,
counting the remaining index down to `0` (the body does not run at `i = 0`). -/
def fyDown (js : Nat → Nat) (pool : List α) : Nat → List α
  | 0 => pool
  | i + 1 => fyDown js (fyStep js pool (i + 1)) i

/-- The full Fisher-Yates shuffle of `shuffleThoughts`. -/
def fisherYates (js : Nat → Nat) (pool : List α) : List α :=
  fyDown js pool (pool.length - 1)

/-- `while (pool.length < recipientIds.length) pool = pool.concat(thoughts);`
embedded with structural fuel.  The loop adds at least one element per
iteration whenever `thoughts` is non-empty (the only way `shuffleThoughts`
reaches it), so fuel `r` never runs out before the condition fails; see
`fillPool_length_ge`. -/
def fillPool (thoughts : List α) (r : Nat) : Nat → List α → List α
  | 0, pool => pool
  | fuel + 1, pool =>
    if pool.length < r then fillPool thoughts r fuel (pool ++ thoughts)
    else pool

/-- Pool construction of `shuffleThoughts`: start from a copy of `thoughts`,
duplicate until `|pool| ≥ r`, then
`if (pool.length > recipientIds.length) pool = pool.slice(0, recipientIds.length);`. -/
def buildPool (thoughts : List α) (r : Nat) : List α :=
  let pool := fillPool thoughts r r thoughts
  if pool.length > r then pool.take r else pool

/-- The final assignment loop of `shuffleThoughts`:
`for (let i = 0; ...) { const recipient = recipientIds[i]; const thought =
pool[i]; if (recipient && thought) assignments[recipient] = {...}; }`.
A write happens while both lists still have an element and the recipient id
is truthy (a non-empty string); the result is the ordered list of record
writes. -/
def assignLoop : List String → List ThoughtIn → List (String × Assigned)
  | r :: rs, t :: ts =>
    if r = "" then assignLoop rs ts
    else (r, t.toAssigned) :: assignLoop rs ts
  | _, _ => []

/-- JavaScript-record lookup over the ordered write list: the last write to a
key wins. -/
def recLookup (k : String) (ws : List (String × Assigned)) : Option Assigned :=
  ((ws.filter (fun p => p.1 == k)).getLast?).map Prod.snd

/-- `shuffleThoughts` of the current server revision: guard on an empty
thought list, build the pool, one Fisher-Yates pass, assign. -/
def shuffleThoughts (js : Nat → Nat) (thoughts : List ThoughtIn)
    (recipientIds : List String) : List (String × Assigned) :=
  if thoughts.isEmpty then []
  else assignLoop recipientIds (fisherYates js (buildPool thoughts recipientIds.length))

/-- The "derangement attempt" loop of the earlier revision's
`shuffleThoughts`:
`while (!isValid && attempts < 5) { isValid = true; /* Fisher-Yates */ ;
attempts++ }` — the constraint check is omitted in the source ("Logic omitted
for MVP simplicity"), so `isValid` is set unconditionally.  Fuel `5` is the
`attempts < 5` bound. -/
def derangeLoop (js : Nat → Nat) : Nat → Bool → List ThoughtIn → List ThoughtIn
  | 0, _, pool => pool
  | _ + 1, true, pool => pool
  | fuel + 1, false, pool => derangeLoop js fuel true (fisherYates js pool)

/-! ### Permutation and length facts about the shuffle -/

theorem swapIdx_length (l : List α) (i j : Nat) : (swapIdx l i j).length = l.length := by
  unfold swapIdx
  cases hi : l[i]? <;> cases hj : l[j]? <;> simp

theorem set_self_of_getElem? {l : List α} {i : Nat} {a : α} (h : l[i]? = some a) :
    l.set i a = l := by
  apply List.ext_getElem?
  intro n
  rw [List.getElem?_set']
  by_cases hin : i = n
  · subst hin; simp [h]
  · simp [hin]

theorem swapIdx_self (l : List α) (i : Nat) : swapIdx l i i = l := by
  unfold swapIdx
  cases h : l[i]? with
  | none => rfl
  | some a =>
    show (l.set i a).set i a = l
    rw [List.set_set]
    exact set_self_of_getElem? h

/-- Swapping two in-bounds positions permutes the list: proved by writing
both sides as `take j l ++ _ :: mid ++ _ :: drop (i+1) l` and exchanging the
two distinguished elements. -/
theorem swapIdx_perm_of_lt {l : List α} {i j : Nat} (hj : j < i) (hi : i < l.length) :
    (swapIdx l i j).Perm l := by
  have hjl : j < l.length := Nat.lt_trans hj hi
  have hil : l[i]? = some l[i] := List.getElem?_eq_some_iff.mpr ⟨hi, rfl⟩
  have hjlx : l[j]? = some l[j] := List.getElem?_eq_some_iff.mpr ⟨hjl, rfl⟩
  unfold swapIdx
  rw [hil, hjlx]
  show ((l.set i l[j]).set j l[i]).Perm l
  set a := l[i] with ha
  set b := l[j] with hb
  have hjta : j < (l.take i).length := by
    rw [List.length_take]; exact Nat.lt_min.mpr ⟨hj, hjl⟩
  -- decompose the swapped list
  have h1 : l.set i b = l.take i ++ b :: l.drop (i + 1) :=
    List.set_eq_take_cons_drop b hi
  have h2 : (l.set i b).set j a = (l.take i).set j a ++ b :: l.drop (i + 1) := by
    rw [h1, List.set_append_left _ _ hjta]
  have h3 : (l.take i).set j a =
      (l.take i).take j ++ a :: (l.take i).drop (j + 1) :=
    List.set_eq_take_cons_drop a hjta
  have h4 : (l.take i).take j = l.take j := by
    rw [List.take_take, Nat.min_eq_left (Nat.le_of_lt hj)]
  -- decompose the original list the same way
  have h5 : l.take i = l.take j ++ b :: (l.take i).drop (j + 1) := by
    conv_lhs => rw [← List.take_append_drop j (l.take i)]
    rw [List.take_take, Nat.min_eq_left (Nat.le_of_lt hj),
      List.drop_eq_getElem_cons hjta]
    congr 2
    rw [List.getElem_take]
  have h6 : l = l.take j ++ b :: (l.take i).drop (j + 1) ++ a :: l.drop (i + 1) := by
    conv_lhs => rw [← List.take_append_drop i l, List.drop_eq_getElem_cons hi]
    rw [← ha, ← h5]
  rw [h2, h3, h4]
  conv_rhs => rw [h6]
  -- now exchange a and b across the middle segment
  set mid := (l.take i).drop (j + 1)
  set rest := l.drop (i + 1)
  have key : (a :: (mid ++ b :: rest)).Perm (b :: (mid ++ a :: rest)) := by
    refine (List.Perm.cons a List.perm_middle).trans ?_
    refine (List.Perm.swap b a _).trans ?_
    exact List.Perm.cons b List.perm_middle.symm
  simp only [List.append_assoc, List.cons_append]
  exact List.Perm.append_left _ key

theorem swapIdx_comm (l : List α) (i j : Nat) : swapIdx l i j = swapIdx l j i := by
  unfold swapIdx
  cases hi : l[i]? <;> cases hj : l[j]? <;> try rfl
  case some.some a b =>
    by_cases hij : i = j
    · subst hij; rw [hi] at hj; cases hj; rfl
    · apply List.ext_getElem?
      intro n
      rw [List.getElem?_set', List.getElem?_set', List.getElem?_set', List.getElem?_set']
      have hi' : i < l.length := (List.getElem?_eq_some_iff.mp hi).1
      have hj' : j < l.length := (List.getElem?_eq_some_iff.mp hj).1
      by_cases hin : i = n <;> by_cases hjn : j = n <;>
        simp_all [List.length_set]

theorem swapIdx_perm (l : List α) (i j : Nat) : (swapIdx l i j).Perm l := by
  rcases Nat.lt_trichotomy j i with h | h | h
  · by_cases hi : i < l.length
    · exact swapIdx_perm_of_lt h hi
    · unfold swapIdx
      have hnone : l[i]? = none := List.getElem?_eq_none (Nat.le_of_not_lt hi)
      rw [hnone]
  · subst h; rw [swapIdx_self]
  · rw [swapIdx_comm]
    by_cases hj : j < l.length
    · exact swapIdx_perm_of_lt h hj
    · unfold swapIdx
      have hnone : l[j]? = none := List.getElem?_eq_none (Nat.le_of_not_lt hj)
      rw [hnone]

theorem fyDown_perm (js : Nat → Nat) (pool : List α) :
    ∀ i, (fyDown js pool i).Perm pool := by
  intro i
  induction i generalizing pool with
  | zero => exact List.Perm.refl pool
  | succ k ih =>
    exact (ih (fyStep js pool (k + 1))).trans (swapIdx_perm pool (k + 1) _)

theorem fisherYates_perm (js : Nat → Nat) (pool : List α) :
    (fisherYates js pool).Perm pool :=
  fyDown_perm js pool _

theorem fisherYates_length (js : Nat → Nat) (pool : List α) :
    (fisherYates js pool).length = pool.length :=
  (fisherYates_perm js pool).length_eq

/-! ### Pool construction facts -/

theorem fillPool_length_ge {t : List α} (ht : t ≠ []) (r : Nat) :
    ∀ fuel pool, r ≤ pool.length + fuel → r ≤ (fillPool t r fuel pool).length := by
  intro fuel
  induction fuel with
  | zero => intro pool h; simpa [fillPool] using h
  | succ f ih =>
    intro pool h
    by_cases hc : pool.length < r
    · have htl : 1 ≤ t.length := List.length_pos.mpr ht
      simp only [fillPool, if_pos hc]
      apply ih
      rw [List.length_append]
      omega
    · simp only [fillPool, if_neg hc]
      omega

theorem fillPool_eq_append (t : List α) (r : Nat) :
    ∀ fuel pool, ∃ k, fillPool t r fuel pool = pool ++ (List.replicate k t).flatten := by
  intro fuel
  induction fuel with
  | zero => exact fun pool => ⟨0, by simp [fillPool]⟩
  | succ f ih =>
    intro pool
    by_cases hc : pool.length < r
    · obtain ⟨k, hk⟩ := ih (pool ++ t)
      exact ⟨k + 1, by
        simp only [fillPool, if_pos hc, hk, List.replicate_succ, List.flatten_cons,
          List.append_assoc]⟩
    · exact ⟨0, by simp [fillPool, hc]⟩

theorem buildPool_eq_take {t : List α} (ht : t ≠ []) (r : Nat) :
    buildPool t r = (fillPool t r r t).take r := by
  unfold buildPool
  by_cases hc : (fillPool t r r t).length > r
  · simp [hc]
  · have hge : r ≤ (fillPool t r r t).length :=
      fillPool_length_ge ht r r t (by omega)
    have hlen : (fillPool t r r t).length = r := by omega
    simp [hc, List.take_of_length_le (le_of_eq hlen)]

theorem buildPool_length {t : List α} (ht : t ≠ []) (r : Nat) :
    (buildPool t r).length = r := by
  rw [buildPool_eq_take ht]
  have hge : r ≤ (fillPool t r r t).length :=
    fillPool_length_ge ht r r t (by omega)
  rw [List.length_take]
  omega

/-- Oversubscription: with fewer thoughts than recipients every thought shows
up in the pool and at least one thought shows up twice. -/
theorem buildPool_oversub {t : List α} [DecidableEq α] (ht : t ≠ []) {r : Nat}
    (hr : t.length < r) :
    (∀ x ∈ t, x ∈ buildPool t r) ∧ ∃ x, 2 ≤ (buildPool t r).count x := by
  obtain ⟨k, hk⟩ := fillPool_eq_append t r r t
  have hge : r ≤ (fillPool t r r t).length :=
    fillPool_length_ge ht r r t (by omega)
  rw [hk, List.length_append] at hge
  rw [buildPool_eq_take ht, hk]
  set z := (List.replicate k t).flatten with hz
  have hsplit : (t ++ z).take r = t ++ z.take (r - t.length) := by
    rw [List.take_append_eq_append_take, List.take_of_length_le (le_of_lt hr)]
  rw [hsplit]
  constructor
  · exact fun x hx => List.mem_append_left _ hx
  · have hzlen : 1 ≤ z.length := by omega
    cases k with
    | zero => rw [hz] at hzlen; simp at hzlen
    | succ k' =>
      have hzeq : z = t ++ (List.replicate k' t).flatten := by
        rw [hz, List.replicate_succ, List.flatten_cons]
      obtain ⟨x, t', hx⟩ : ∃ x t', t = x :: t' := by
        cases t with
        | nil => exact absurd rfl ht
        | cons a b => exact ⟨a, b, rfl⟩
      refine ⟨x, ?_⟩
      rw [List.count_append]
      have h1 : 1 ≤ t.count x := by
        rw [hx, List.count_cons_self]; omega
      have h2 : 1 ≤ (z.take (r - t.length)).count x := by
        have hm : 1 ≤ r - t.length := by omega
        obtain ⟨m, hm'⟩ : ∃ m, r - t.length = m + 1 :=
          ⟨r - t.length - 1, by omega⟩
        rw [hzeq, hm', hx]
        simp only [List.cons_append, List.take_succ_cons, List.count_cons_self]
        omega
      omega

/-! ### The assignment loop -/

theorem assignLoop_maps (rs : List String) :
    ∀ ps : List ThoughtIn, ps.length = rs.length → (∀ r ∈ rs, r ≠ "") →
      (assignLoop rs ps).map Prod.fst = rs ∧
      (assignLoop rs ps).map Prod.snd = ps.map ThoughtIn.toAssigned := by
  induction rs with
  | nil =>
    intro ps h _
    cases ps with
    | nil => simp [assignLoop]
    | cons a b => simp at h
  | cons r rs ih =>
    intro ps h hne
    cases ps with
    | nil => simp at h
    | cons p ps' =>
      have hr : r ≠ "" := hne r (by simp)
      obtain ⟨h1, h2⟩ := ih ps' (by simpa using h) (fun x hx => hne x (by simp [hx]))
      simp [assignLoop, hr, h1, h2]

theorem toAssigned_injective : Function.Injective ThoughtIn.toAssigned := by
  intro a b h
  cases a; cases b
  simpa [ThoughtIn.toAssigned, Assigned.mk.injEq, ThoughtIn.mk.injEq] using h

/-! ### Claim C3 — distribution size, pool multiset, oversubscription -/

/-- C3: a swap over a non-empty thought list assigns each recipient exactly
one thought (the write keys are exactly the recipient list, without
duplicates), produces exactly `R` entries, and the multiset of assigned
thoughts is the pool obtained by concatenating the thought list with itself
until its length is at least `R` and truncating to `R` (`buildPool`).  When
`R > T`, every thought is assigned at least once and some thought is
assigned at least twice. -/
theorem shuffleThoughts_distribution (js : Nat → Nat) (thoughts : List ThoughtIn)
    (recipientIds : List String) (ht : thoughts ≠ [])
    (hnd : recipientIds.Nodup) (hne : ∀ r ∈ recipientIds, r ≠ "") :
    ((shuffleThoughts js thoughts recipientIds).map Prod.fst = recipientIds ∧
      ((shuffleThoughts js thoughts recipientIds).map Prod.fst).Nodup) ∧
    (shuffleThoughts js thoughts recipientIds).length = recipientIds.length ∧
    ((shuffleThoughts js thoughts recipientIds).map Prod.snd).Perm
      ((buildPool thoughts recipientIds.length).map ThoughtIn.toAssigned) ∧
    (thoughts.length < recipientIds.length →
      (∀ t ∈ thoughts,
        t.toAssigned ∈ (shuffleThoughts js thoughts recipientIds).map Prod.snd) ∧
      ∃ a, 2 ≤ ((shuffleThoughts js thoughts recipientIds).map Prod.snd).count a) := by
  have hts : thoughts.isEmpty = false := by
    cases thoughts with
    | nil => exact absurd rfl ht
    | cons a b => rfl
  have hws : shuffleThoughts js thoughts recipientIds =
      assignLoop recipientIds
        (fisherYates js (buildPool thoughts recipientIds.length)) := by
    rw [shuffleThoughts, hts]
    rfl
  set P := fisherYates js (buildPool thoughts recipientIds.length) with hP
  have hPlen : P.length = recipientIds.length := by
    rw [hP, fisherYates_length, buildPool_length ht]
  obtain ⟨hfst, hsnd⟩ := assignLoop_maps recipientIds P hPlen hne
  have hperm : (P.map ThoughtIn.toAssigned).Perm
      ((buildPool thoughts recipientIds.length).map ThoughtIn.toAssigned) :=
    (fisherYates_perm js _).map ThoughtIn.toAssigned
  refine ⟨⟨by rw [hws, hfst], by rw [hws, hfst]; exact hnd⟩, ?_, ?_, ?_⟩
  · have := congrArg List.length hfst
    simpa [hws] using this
  · rw [hws, hsnd]
    exact hperm
  · intro hover
    obtain ⟨hmem, x, hx⟩ := buildPool_oversub ht hover
    constructor
    · intro t htm
      rw [hws, hsnd]
      exact hperm.symm.mem_iff.mp (List.mem_map_of_mem _ (hmem t htm))
    · refine ⟨x.toAssigned, ?_⟩
      rw [hws, hsnd, hperm.count_eq,
        List.count_map_of_injective _ _ toAssigned_injective]
      exact hx

/-- Witness for C3 at a concrete oversubscribed input: one thought, two
recipients. -/
theorem shuffleThoughts_distribution_witness :
    (([⟨"A", "u1", "n1"⟩] : List ThoughtIn) ≠ [] ∧
      (["s1", "s2"] : List String).Nodup ∧ (∀ r ∈ (["s1", "s2"] : List String), r ≠ "")) ∧
    (((shuffleThoughts (fun _ => 0) [⟨"A", "u1", "n1"⟩] ["s1", "s2"]).map Prod.fst
        = ["s1", "s2"] ∧
      ((shuffleThoughts (fun _ => 0) [⟨"A", "u1", "n1"⟩] ["s1", "s2"]).map
        Prod.fst).Nodup) ∧
    (shuffleThoughts (fun _ => 0) [⟨"A", "u1", "n1"⟩] ["s1", "s2"]).length =
      (["s1", "s2"] : List String).length ∧
    ((shuffleThoughts (fun _ => 0) [⟨"A", "u1", "n1"⟩] ["s1", "s2"]).map Prod.snd).Perm
      ((buildPool [⟨"A", "u1", "n1"⟩] (["s1", "s2"] : List String).length).map
        ThoughtIn.toAssigned) ∧
    (([⟨"A", "u1", "n1"⟩] : List ThoughtIn).length < (["s1", "s2"] : List String).length →
      (∀ t ∈ ([⟨"A", "u1", "n1"⟩] : List ThoughtIn),
        t.toAssigned ∈ (shuffleThoughts (fun _ => 0) [⟨"A", "u1", "n1"⟩]
          ["s1", "s2"]).map Prod.snd) ∧
      ∃ a, 2 ≤ ((shuffleThoughts (fun _ => 0) [⟨"A", "u1", "n1"⟩]
        ["s1", "s2"]).map Prod.snd).count a)) :=
  ⟨⟨by decide, by decide, by decide⟩,
    shuffleThoughts_distribution (fun _ => 0) [⟨"A", "u1", "n1"⟩] ["s1", "s2"]
      (by decide) (by decide) (by decide)⟩

/-! ### Claim C1 — no-own-thought is not enforced -/

/-- C1 counterexample: two thoughts by two distinct authors, recipients
`s1` (user `u1`) and `s2` (user `u2`), and a run of the shuffle that leaves
the pool in place (`j = i` at every Fisher-Yates step).  Recipient `s1`
receives the thought authored by `u1` — their own — even though the live
thoughts come from two distinct authors. -/
theorem shuffleThoughts_own_thought_counterexample :
    (([⟨"A", "u1", "n1"⟩, ⟨"B", "u2", "n2"⟩] : List ThoughtIn).map
        ThoughtIn.authorId).eraseDups.length = 2 ∧
    recLookup "s1" (shuffleThoughts (fun _ => 1)
        [⟨"A", "u1", "n1"⟩, ⟨"B", "u2", "n2"⟩] ["s1", "s2"]) =
      some ⟨"A", "u1", "n1"⟩ ∧
    (fun s => if s = "s1" then "u1" else "u2") "s1" = "u1" := by
  refine ⟨by decide, by decide, rfl⟩

/-- C1 amended: the swap engine enforces no "no-own-thought" constraint.
There are swaps whose thoughts come from at least two distinct authors in
which a recipient receives a thought whose author id is their own user id;
moreover the earlier revision's "re-shuffle up to 5 times" loop performs
exactly one Fisher-Yates pass, because its validity flag is set to `true`
unconditionally (the constraint check is omitted in the source), and no
pairwise repair step exists in either revision. -/
theorem shuffleThoughts_no_derangement :
    (∃ (js : Nat → Nat) (thoughts : List ThoughtIn) (recipientIds : List String)
        (userOf : String → String) (r : String) (a : Assigned),
      2 ≤ ((thoughts.map ThoughtIn.authorId).eraseDups).length ∧
      r ∈ recipientIds ∧
      recLookup r (shuffleThoughts js thoughts recipientIds) = some a ∧
      a.authorId = userOf r) ∧
    (∀ (js : Nat → Nat) (pool : List ThoughtIn),
      derangeLoop js 5 false pool = fisherYates js pool) := by
  constructor
  · exact ⟨fun _ => 1, [⟨"A", "u1", "n1"⟩, ⟨"B", "u2", "n2"⟩], ["s1", "s2"],
      fun s => if s = "s1" then "u1" else "u2", "s1", ⟨"A", "u1", "n1"⟩,
      by decide, by decide, by decide, by decide⟩
  · intro js pool
    rfl

/-! ### Identity resolution (connection handler) -/

/-- A stored `User` row (`users` table). -/
structure User where
  id : String
  email : String
  name : String
  role : String
  canvasId : String
  accessToken : String
  consentGiven : Bool
deriving DecidableEq, Repr

/-- `prisma.user.findUnique({ where: { email } })` (the `email` column is
unique). -/
def findUserByEmail (store : List User) (email : String) : Option User :=
  store.find? (fun u => u.email == email)

/-- `prisma.user.upsert({ where: { email }, update: { name, role },
create: { email, name, role, canvasId, accessToken: 'guest-token' } })`:
update the matching row's `name` and `role` in place, or insert a fresh row.
`newId` stands for the row id the database generates. -/
def upsertUserByEmail (store : List User) (email name role newId canvasId : String) :
    User × List User :=
  match findUserByEmail store email with
  | some u =>
    ({ u with name := name, role := role },
     store.map (fun v =>
       if v.email == email then { v with name := name, role := role } else v))
  | none =>
    let u : User := ⟨newId, email, name, role, canvasId, "guest-token", false⟩
    (u, store ++ [u])

/-- `email.startsWith('guest_')`, expressed as a character-level prefix test
(executable in proofs; `String.startsWith` itself is an opaque native
function). -/
def guestEmail (email : String) : Bool :=
  "guest_".data.isPrefixOf email.data

/-- The `userPromise` body of the connection handler:
`if (!email) return null;` then
`if (email.startsWith('guest_'))` upsert with a synthesized
`canvasId: 'guest-' + Math.random().toString(36).substring(7)` (`synth`
stands for the random suffix), `else` a plain lookup by email. -/
def resolveUser (store : List User) (email name role newId synth : String) :
    Option User × List User :=
  if email = "" then (none, store)
  else if guestEmail email then
    let p := upsertUserByEmail store email name role newId ("guest-" ++ synth)
    (some p.1, p.2)
  else (findUserByEmail store email, store)

/-- Events a connection can receive while being established. -/
inductive ConnEv
  | authError (msg : String)
  | consentStatus (consentGiven : Bool)
deriving DecidableEq, Repr

/-- `userPromise.then(...)`: an unresolved user gets `AUTH_ERROR` and
`socket.disconnect()`; a resolved user gets `CONSENT_STATUS`.  Result:
(events emitted, connection still open, user store afterwards). -/
def connectOutcome (store : List User) (email name role newId synth : String) :
    List ConnEv × Bool × List User :=
  match resolveUser store email name role newId synth with
  | (none, s) => ([ConnEv.authError "Session invalid. Please log in again."], false, s)
  | (some u, s) => ([ConnEv.consentStatus u.consentGiven], true, s)

/-! ### Claim C6 — authentication on connect -/

/-- C6: a non-guest email with no stored user gets `AUTH_ERROR`, the
connection is closed and no user record is created; a guest email is
upserted with the hinted name and role (and, when newly created, the
synthesized external id) and no `AUTH_ERROR` is emitted. -/
theorem connect_auth (store : List User) (email name role newId synth : String) :
    (guestEmail email = false → findUserByEmail store email = none →
      connectOutcome store email name role newId synth =
        ([ConnEv.authError "Session invalid. Please log in again."], false, store)) ∧
    (guestEmail email = true →
      (connectOutcome store email name role newId synth).2.1 = true ∧
      (∀ m, ConnEv.authError m ∉ (connectOutcome store email name role newId synth).1) ∧
      (resolveUser store email name role newId synth).1.map User.name = some name ∧
      (resolveUser store email name role newId synth).1.map User.role = some role ∧
      (findUserByEmail store email = none →
        (resolveUser store email name role newId synth).2 =
          store ++ [⟨newId, email, name, role, "guest-" ++ synth, "guest-token", false⟩])) := by
  have hguestne : guestEmail email = true → email ≠ "" := by
    intro h he
    subst he
    simp [guestEmail] at h
  constructor
  · intro hg hf
    unfold connectOutcome resolveUser
    by_cases he : email = ""
    · simp [he]
    · simp [he, hg, hf]
  · intro hg
    have he : ¬ email = "" := hguestne hg
    unfold connectOutcome resolveUser upsertUserByEmail
    cases hf : findUserByEmail store email with
    | some u => simp [he, hg, hf]
    | none => simp [he, hg, hf]

/-- Witness for C6: an unknown non-guest email is rejected with the store
untouched; a guest email is admitted and appended to the store. -/
theorem connect_auth_witness :
    (connectOutcome [] "s1@example.edu" "S" "STUDENT" "id1" "abc" =
      ([ConnEv.authError "Session invalid. Please log in again."], false, []) ∧
    ((connectOutcome [] "guest_1" "G" "STUDENT" "id2" "abc").2.1 = true ∧
      (∀ m, ConnEv.authError m ∉ (connectOutcome [] "guest_1" "G" "STUDENT" "id2" "abc").1) ∧
      (resolveUser [] "guest_1" "G" "STUDENT" "id2" "abc").1.map User.name = some "G" ∧
      (resolveUser [] "guest_1" "G" "STUDENT" "id2" "abc").1.map User.role = some "STUDENT" ∧
      (findUserByEmail [] "guest_1" = none →
        (resolveUser [] "guest_1" "G" "STUDENT" "id2" "abc").2 =
          [] ++ [⟨"id2", "guest_1", "G", "STUDENT", "guest-" ++ "abc", "guest-token", false⟩]))) :=
  ⟨(connect_auth [] "s1@example.edu" "S" "STUDENT" "id1" "abc").1 (by decide) (by decide),
   (connect_auth [] "guest_1" "G" "STUDENT" "id2" "abc").2 (by decide)⟩

/-! ### Claim C2 — authorization uses the handshake role -/

/-- The inbound socket commands of the current server. -/
inductive Cmd
  | updateConsent | getSavedPrompts | savePrompt | deleteSavedPrompt
  | teacherStartClass | updateSessionSettings | teacherRejoin | teacherResetState
  | joinRoom | teacherSendPrompt | submitThought | teacherDeleteThought
  | triggerSwap | teacherReassignDistribution | studentRequestNewThought
  | endSession | adminJoin | adminGetData | getPreviousSessions
deriving DecidableEq, Repr

/-- The entry guard each handler runs before doing anything.  `user` is the
resolved stored user from `userPromise`; `role` is the handshake's
`socket.handshake.auth.role`, destructured once per connection.  Teacher
commands guard with `if (!user || role !== 'TEACHER') return;`, the student
re-swap with `role !== 'STUDENT'`, `JOIN_ROOM` / `SUBMIT_THOUGHT` /
`UPDATE_CONSENT` with `if (!user) return;`, and the admin commands with
nothing. -/
def handlerProceeds (c : Cmd) (user : Option User) (role : String) : Bool :=
  match c with
  | .adminJoin => true
  | .adminGetData => true
  | .updateConsent => user.isSome
  | .joinRoom => user.isSome
  | .submitThought => user.isSome
  | .studentRequestNewThought => user.isSome && role == "STUDENT"
  | _ => user.isSome && role == "TEACHER"

/-- C2 counterexample: the same stored user (a TEACHER row), two handshakes
differing only in the claimed role.  `TRIGGER_SWAP` proceeds in one run and
is silently dropped in the other: the handshake role decides. -/
theorem handshake_role_divergence :
    handlerProceeds Cmd.triggerSwap
      (some ⟨"u1", "t@example.edu", "T", "TEACHER", "c1", "tok", false⟩) "TEACHER" = true ∧
    handlerProceeds Cmd.triggerSwap
      (some ⟨"u1", "t@example.edu", "T", "TEACHER", "c1", "tok", false⟩) "STUDENT" = false := by
  decide

/-- C2 amended: the authorization decision is a function of the handshake's
claimed role and of whether a stored user resolved at all; the stored user's
`role` field is never consulted.  Any two resolved users (whatever their
stored roles) are authorized identically under the same handshake role. -/
theorem handlerProceeds_ignores_stored_role (c : Cmd) (u u' : Option User)
    (role : String) (h : u.isSome = u'.isSome) :
    handlerProceeds c u role = handlerProceeds c u' role := by
  cases c <;> simp [handlerProceeds, h]

/-- Witness for the amended C2: a stored STUDENT row and a stored TEACHER
row are authorized identically for `TRIGGER_SWAP` under the same handshake. -/
theorem handlerProceeds_ignores_stored_role_witness :
    (some ⟨"u1", "a@example.edu", "A", "STUDENT", "c1", "tok", false⟩ : Option User).isSome =
      (some ⟨"u2", "b@example.edu", "B", "TEACHER", "c2", "tok", false⟩ : Option User).isSome ∧
    handlerProceeds Cmd.triggerSwap
        (some ⟨"u1", "a@example.edu", "A", "STUDENT", "c1", "tok", false⟩) "TEACHER" =
      handlerProceeds Cmd.triggerSwap
        (some ⟨"u2", "b@example.edu", "B", "TEACHER", "c2", "tok", false⟩) "TEACHER" :=
  ⟨by decide,
   handlerProceeds_ignores_stored_role Cmd.triggerSwap _ _ "TEACHER" (by decide)⟩

/-! ### Persistent rows and room state used by the command handlers -/

/-- A `courses` row (`joinCode` carries a unique index). -/
structure Course where
  id : String
  joinCode : String
  title : String
  teacherId : String
deriving DecidableEq, Repr

/-- A `Session` row. -/
structure Session where
  id : String
  courseId : String
  status : String
  maxSwapRequests : Int
deriving DecidableEq, Repr

/-- A `PromptUse` row. -/
structure PromptUse where
  id : String
  sessionId : String
  content : String
  ptype : String
  options : List String
deriving DecidableEq, Repr

/-- A `Thought` row. -/
structure ThoughtRow where
  id : String
  promptUseId : String
  authorId : String
  content : String
deriving DecidableEq, Repr

/-- One entry of `roomAssignments[joinCode]`:
`{studentName, thoughtContent, originalAuthorName}`. -/
structure DistEntry where
  studentName : String
  thoughtContent : String
  originalAuthorName : String
deriving DecidableEq, Repr

/-- The per-room distribution record, keyed by socket id. -/
def DistMap := String → Option DistEntry

/-- Record-field assignment `m[socket.id] = entry`. -/
def DistMap.setEntry (m : DistMap) (k : String) (v : DistEntry) : DistMap :=
  fun x => if x = k then some v else m x

/-- Lookup through the optional room record:
`roomAssignments[joinCode] && roomAssignments[joinCode][k]`. -/
def distLookup (dist : Option DistMap) (k : String) : Option DistEntry :=
  match dist with
  | none => none
  | some m => m k

/-- Events the handlers below can emit to some connection. -/
inductive SEv
  | errorMsg (msg : String)
  | receiveSwap (content : String)
  | distributionUpdate
  | newPrompt (content promptUseId ptype : String) (options : List String)
  | thoughtsUpdateEmpty
  | classStarted (joinCode sessionId : String) (maxSwapRequests : Int)
deriving DecidableEq, Repr

/-- `prisma.course.findUnique({ where: { joinCode } })`. -/
def findCourseByJoinCode (courses : List Course) (joinCode : String) : Option Course :=
  courses.find? (fun c => c.joinCode == joinCode)

/-- `prisma.session.findFirst({ where: { courseId, status: 'ACTIVE' } })`. -/
def findActiveSession (sessions : List Session) (courseId : String) : Option Session :=
  sessions.find? (fun s => s.courseId == courseId && s.status == "ACTIVE")

/-! ### Claim C4 — SUBMIT_THOUGHT and the one-thought-per-author invariant -/

/-- The `SUBMIT_THOUGHT` handler's effect on the `Thought` table: after the
`if (!user) return;` guard, `if (promptUseId)` holds, a row is created —
unconditionally, with no lookup of an existing row for the same
`(promptUseId, authorId)`. -/
def submitThought (user : Option User) (promptUseId : Option String)
    (content newId : String) (thoughts : List ThoughtRow) : List ThoughtRow :=
  match user with
  | none => thoughts
  | some u =>
    match promptUseId with
    | none => thoughts
    | some p => thoughts ++ [⟨newId, p, u.id, content⟩]

/-- The `TEACHER_DELETE_THOUGHT` handler's effect on the `Thought` table:
teacher guard, `findUnique` by id, then `prisma.thought.delete`. -/
def deleteThought (user : Option User) (role : String) (thoughtId : String)
    (thoughts : List ThoughtRow) : List ThoughtRow :=
  match user with
  | none => thoughts
  | some _ =>
    if role != "TEACHER" then thoughts
    else
      match thoughts.find? (fun t => t.id == thoughtId) with
      | none => thoughts
      | some _ => thoughts.filter (fun t => t.id != thoughtId)

/-- The commands that touch the `Thought` table. -/
inductive ThoughtCmd
  | submit (user : Option User) (promptUseId : Option String) (content newId : String)
  | teacherDelete (user : Option User) (role : String) (thoughtId : String)

/-- Running a sequence of thought commands against the table; states
reachable from the empty table are exactly the results of such runs. -/
def execThoughtCmds : List ThoughtCmd → List ThoughtRow → List ThoughtRow
  | [], s => s
  | c :: cs, s =>
    execThoughtCmds cs
      (match c with
       | .submit u p content newId => submitThought u p content newId s
       | .teacherDelete u r tid => deleteThought u r tid s)

/-- Number of non-deleted thoughts for a `(promptUseId, authorId)` pair. -/
def liveThoughtsFor (thoughts : List ThoughtRow) (promptUseId authorId : String) : Nat :=
  (thoughts.filter
    (fun t => t.promptUseId == promptUseId && t.authorId == authorId)).length

/-- C4 counterexample: from the empty table, the same student submits twice
for the same prompt use with nothing deleted in between; the reachable state
holds two non-deleted thoughts for `("p1", "u1")`, violating the at-most-one
invariant. -/
theorem duplicate_thought_counterexample :
    liveThoughtsFor
      (execThoughtCmds
        [ThoughtCmd.submit (some ⟨"u1", "s@example.edu", "S", "STUDENT", "c", "t", false⟩)
           (some "p1") "A" "t1",
         ThoughtCmd.submit (some ⟨"u1", "s@example.edu", "S", "STUDENT", "c", "t", false⟩)
           (some "p1") "B" "t2"] [])
      "p1" "u1" = 2 := by
  decide

/-- C4 amended: `SUBMIT_THOUGHT` inserts unconditionally whenever a
`promptUseId` is supplied — every such submission increments the number of
non-deleted thoughts for its `(promptUseId, authorId)` pair, whether or not
one already exists.  The at-most-one invariant is not enforced by the
server; it holds only if clients never resubmit without an intervening
teacher deletion. -/
theorem submitThought_unconditional_insert (u : User) (p content newId : String)
    (thoughts : List ThoughtRow) :
    liveThoughtsFor (submitThought (some u) (some p) content newId thoughts) p u.id =
      liveThoughtsFor thoughts p u.id + 1 := by
  simp [submitThought, liveThoughtsFor, List.filter_append]

/-! ### The STUDENT_REQUEST_NEW_THOUGHT handler (claims C5 and C9) -/

/-- The quota error text:
`` `Limit reached. You can only request a change ${session.maxSwapRequests} time(s).` ``. -/
def limitMsg (n : Int) : String :=
  "Limit reached. You can only request a change " ++ toString n ++ " time(s)."

theorem limitMsg_starts_limit_reached (n : Int) :
    "Limit reached".data <+: (limitMsg n).data := by
  have h : "Limit reached".data <+:
      "Limit reached. You can only request a change ".data := by decide
  unfold limitMsg
  rw [String.data_append, String.data_append]
  exact h.trans ((List.prefix_append _ _).trans (List.prefix_append _ _))

/-- `prisma.swapRequest.count({ where: { studentId, sessionId } })` over the
ledger, as the integer the JavaScript comparison sees. -/
def countSwapRequests (swapRequests : List (String × String))
    (studentId sessionId : String) : Int :=
  ((swapRequests.filter (fun r => r.1 == studentId && r.2 == sessionId)).length : Int)

/-- The latest prompt use of a session:
`prisma.promptUse.findFirst({ where: { sessionId }, orderBy: { id: 'desc' } })`
(rows are listed in insertion order, ids ascend, so the latest is the last
matching row). -/
def latestPromptUse (promptUses : List PromptUse) (sessionId : String) :
    Option PromptUse :=
  (promptUses.filter (fun p => p.sessionId == sessionId)).getLast?

/-- The `STUDENT_REQUEST_NEW_THOUGHT` handler.
Arguments mirror the source: the resolved `user` and handshake `role`, the
payload `{joinCode, currentThoughtContent}`, the store tables, the room's
`roomAssignments[joinCode]` record (`dist`, absent when the room key is
missing), this connection's `socket.id` and handshake name, and the random
draw `pick` for `available[Math.floor(Math.random() * available.length)]`.
`authorNameOf` stands for the `include: { author: true }` join.
Returns the swap-request ledger, the room record and the emitted events. -/
def studentRequestNewThought (user : Option User) (role : String)
    (joinCode currentThoughtContent : String)
    (courses : List Course) (sessions : List Session) (promptUses : List PromptUse)
    (swapRequests : List (String × String)) (thoughts : List ThoughtRow)
    (authorNameOf : String → String) (dist : Option DistMap)
    (socketId handshakeName : String) (pick : Nat) :
    List (String × String) × Option DistMap × List SEv :=
  match user with
  | none => (swapRequests, dist, [])
  | some u =>
    if role != "STUDENT" then (swapRequests, dist, [])
    else
      match findCourseByJoinCode courses joinCode with
      | none => (swapRequests, dist, [])
      | some course =>
        match findActiveSession sessions course.id with
        | none => (swapRequests, dist, [])
        | some session =>
          match latestPromptUse promptUses session.id with
          | none => (swapRequests, dist, [])
          | some promptUse =>
            if session.maxSwapRequests ≤ countSwapRequests swapRequests u.id session.id then
              (swapRequests, dist, [SEv.errorMsg (limitMsg session.maxSwapRequests)])
            else
              let allThoughts := thoughts.filter
                (fun t => t.promptUseId == promptUse.id && t.authorId != u.id)
              let available := allThoughts.filter
                (fun t => t.content != currentThoughtContent)
              if 0 < available.length then
                let rt := available.getD (pick % available.length) ⟨"", "", "", ""⟩
                let ledger := swapRequests ++ [(u.id, session.id)]
                match dist with
                | some m =>
                  if (m socketId).isSome then
                    (ledger,
                     some (m.setEntry socketId
                       ⟨if handshakeName = "" then "Anonymous" else handshakeName,
                        rt.content, authorNameOf rt.authorId⟩),
                     [SEv.distributionUpdate, SEv.receiveSwap rt.content])
                  else (ledger, some m, [SEv.receiveSwap rt.content])
                | none => (ledger, none, [SEv.receiveSwap rt.content])
              else
                (swapRequests, dist,
                 [SEv.errorMsg "No other different thoughts available to swap."])

/-! ### Claim C5 — the re-swap quota -/

/-- C5: in a room with an active session and a current prompt use, a
student's request emits an error starting with "Limit reached" and leaves
the ledger and distribution unchanged exactly when the student's request
count has reached `session.maxSwapRequests`; a successful request (one that
emits `RECEIVE_SWAP`) appends exactly one ledger row; and with
`maxSwapRequests = 0` every request fails with the quota error. -/
theorem studentRequest_quota_spec
    (u : User) (joinCode cur : String)
    (courses : List Course) (sessions : List Session) (promptUses : List PromptUse)
    (swapRequests : List (String × String)) (thoughts : List ThoughtRow)
    (authorNameOf : String → String) (dist : Option DistMap)
    (socketId handshakeName : String) (pick : Nat)
    (course : Course) (session : Session) (promptUse : PromptUse)
    (hc : findCourseByJoinCode courses joinCode = some course)
    (hs : findActiveSession sessions course.id = some session)
    (hp : latestPromptUse promptUses session.id = some promptUse) :
    let out := studentRequestNewThought (some u) "STUDENT" joinCode cur courses sessions
      promptUses swapRequests thoughts authorNameOf dist socketId handshakeName pick
    (((∃ msg, SEv.errorMsg msg ∈ out.2.2 ∧ "Limit reached".data <+: msg.data) ∧
        out.1 = swapRequests ∧ out.2.1 = dist) ↔
      session.maxSwapRequests ≤ countSwapRequests swapRequests u.id session.id) ∧
    ((∃ c, SEv.receiveSwap c ∈ out.2.2) →
      out.1 = swapRequests ++ [(u.id, session.id)]) ∧
    (session.maxSwapRequests = 0 →
      out = (swapRequests, dist, [SEv.errorMsg (limitMsg session.maxSwapRequests)])) := by
  intro out
  have hcount : (0 : Int) ≤ countSwapRequests swapRequests u.id session.id :=
    Int.ofNat_nonneg _
  by_cases hlim : session.maxSwapRequests ≤ countSwapRequests swapRequests u.id session.id
  · have hout : out = (swapRequests, dist,
        [SEv.errorMsg (limitMsg session.maxSwapRequests)]) := by
      simp only [out, studentRequestNewThought, hc, hs, hp, bne_self_eq_false,
        Bool.false_eq_true, if_false, if_pos hlim]
    refine ⟨?_, ?_, fun _ => hout⟩
    · refine iff_of_true ⟨⟨limitMsg session.maxSwapRequests, ?_,
        limitMsg_starts_limit_reached _⟩, by rw [hout], by rw [hout]⟩ hlim
      rw [hout]
      exact List.mem_singleton.mpr rfl
    · intro ⟨c, hcmem⟩
      rw [hout] at hcmem
      simp at hcmem
  · have h0 : ¬ session.maxSwapRequests = 0 := fun h => hlim (h ▸ hcount)
    by_cases havail : 0 < ((thoughts.filter
        (fun t => t.promptUseId == promptUse.id && t.authorId != u.id)).filter
        (fun t => t.content != cur)).length
    · -- success path: no error is emitted and one ledger row is appended
      have hledger : out.1 = swapRequests ++ [(u.id, session.id)] ∧
          (∀ msg, SEv.errorMsg msg ∉ out.2.2) := by
        simp only [out, studentRequestNewThought, hc, hs, hp, bne_self_eq_false,
          Bool.false_eq_true, if_false, if_neg hlim, if_pos havail]
        cases dist with
        | none => simp
        | some m =>
          by_cases hm : (m socketId).isSome
          · simp [hm]
          · simp [hm]
      refine ⟨?_, fun _ => hledger.1, fun h => absurd h h0⟩
      refine iff_of_false (fun ⟨⟨msg, hmem, _⟩, _, _⟩ => hledger.2 msg hmem) hlim
    · have hout : out = (swapRequests, dist,
          [SEv.errorMsg "No other different thoughts available to swap."]) := by
        simp only [out, studentRequestNewThought, hc, hs, hp, bne_self_eq_false,
          Bool.false_eq_true, if_false, if_neg hlim, if_neg havail]
      refine ⟨?_, ?_, fun h => absurd h h0⟩
      · refine iff_of_false ?_ hlim
        rintro ⟨⟨msg, hmem, hpre⟩, -, -⟩
        rw [hout] at hmem
        have : msg = "No other different thoughts available to swap." := by
          simpa using hmem
        rw [this] at hpre
        revert hpre
        decide
      · intro ⟨c, hcmem⟩
        rw [hout] at hcmem
        simp at hcmem

/-- Witness for C5: one prior request against a quota of 1 — the next
request hits the limit. -/
theorem studentRequest_quota_spec_witness :
    let out := studentRequestNewThought
      (some ⟨"u1", "s@example.edu", "S", "STUDENT", "c", "t", false⟩) "STUDENT"
      "ABC123" "X" [⟨"c1", "ABC123", "T", "t1"⟩] [⟨"se1", "c1", "ACTIVE", 1⟩]
      [⟨"p1", "se1", "Why?", "TEXT", []⟩] [("u1", "se1")] [⟨"t1", "p1", "u2", "B"⟩]
      (fun _ => "N") none "s1" "S" 0
    (((∃ msg, SEv.errorMsg msg ∈ out.2.2 ∧ "Limit reached".data <+: msg.data) ∧
        out.1 = [("u1", "se1")] ∧ out.2.1 = none) ↔
      (⟨"se1", "c1", "ACTIVE", 1⟩ : Session).maxSwapRequests ≤
        countSwapRequests [("u1", "se1")] "u1" "se1") ∧
    ((∃ c, SEv.receiveSwap c ∈ out.2.2) → out.1 = [("u1", "se1")] ++ [("u1", "se1")]) ∧
    ((⟨"se1", "c1", "ACTIVE", 1⟩ : Session).maxSwapRequests = 0 →
      out = ([("u1", "se1")], none,
        [SEv.errorMsg (limitMsg (⟨"se1", "c1", "ACTIVE", 1⟩ : Session).maxSwapRequests)])) :=
  studentRequest_quota_spec ⟨"u1", "s@example.edu", "S", "STUDENT", "c", "t", false⟩
    "ABC123" "X" [⟨"c1", "ABC123", "T", "t1"⟩] [⟨"se1", "c1", "ACTIVE", 1⟩]
    [⟨"p1", "se1", "Why?", "TEXT", []⟩] [("u1", "se1")] [⟨"t1", "p1", "u2", "B"⟩]
    (fun _ => "N") none "s1" "S" 0 ⟨"c1", "ABC123", "T", "t1"⟩ ⟨"se1", "c1", "ACTIVE", 1⟩
    ⟨"p1", "se1", "Why?", "TEXT", []⟩ (by decide) (by decide) (by decide)

/-! ### Claim C9 — successful re-swap with no distribution entry -/

/-- C9: a successful student re-swap whose connection has no entry in the
room's distribution record still appends one `SwapRequest` row and emits
`RECEIVE_SWAP`, while the distribution record is returned unchanged and no
`DISTRIBUTION_UPDATE` is emitted; and — whatever the ledger, distribution
record and outcome — the entry of every other connection id is unchanged. -/
theorem studentRequest_missing_entry_frame
    (u : User) (joinCode cur : String)
    (courses : List Course) (sessions : List Session) (promptUses : List PromptUse)
    (swapRequests : List (String × String)) (thoughts : List ThoughtRow)
    (authorNameOf : String → String) (dist : Option DistMap)
    (socketId handshakeName : String) (pick : Nat)
    (course : Course) (session : Session) (promptUse : PromptUse)
    (hc : findCourseByJoinCode courses joinCode = some course)
    (hs : findActiveSession sessions course.id = some session)
    (hp : latestPromptUse promptUses session.id = some promptUse)
    (hlim : countSwapRequests swapRequests u.id session.id < session.maxSwapRequests)
    (havail : 0 < ((thoughts.filter
        (fun t => t.promptUseId == promptUse.id && t.authorId != u.id)).filter
        (fun t => t.content != cur)).length)
    (hnoentry : distLookup dist socketId = none) :
    let out := studentRequestNewThought (some u) "STUDENT" joinCode cur courses sessions
      promptUses swapRequests thoughts authorNameOf dist socketId handshakeName pick
    out.1 = swapRequests ++ [(u.id, session.id)] ∧
    (∃ c, SEv.receiveSwap c ∈ out.2.2) ∧
    out.2.1 = dist ∧
    SEv.distributionUpdate ∉ out.2.2 ∧
    (∀ (swapRequests0 : List (String × String)) (dist0 : Option DistMap) (k : String),
      k ≠ socketId →
      distLookup ((studentRequestNewThought (some u) "STUDENT" joinCode cur courses
          sessions promptUses swapRequests0 thoughts authorNameOf dist0 socketId
          handshakeName pick).2.1) k = distLookup dist0 k) := by
  intro out
  have hlim' : ¬ session.maxSwapRequests ≤ countSwapRequests swapRequests u.id session.id :=
    not_le.mpr hlim
  have hmain : out.1 = swapRequests ++ [(u.id, session.id)] ∧
      (∃ c, SEv.receiveSwap c ∈ out.2.2) ∧
      out.2.1 = dist ∧ SEv.distributionUpdate ∉ out.2.2 := by
    cases dist with
    | none =>
      simp only [out, studentRequestNewThought, hc, hs, hp, bne_self_eq_false,
        Bool.false_eq_true, if_false, if_neg hlim', if_pos havail]
      simp
    | some m =>
      have hm : (m socketId).isSome = false := by
        simp only [distLookup] at hnoentry
        rw [hnoentry]
        rfl
      simp only [out, studentRequestNewThought, hc, hs, hp, bne_self_eq_false,
        Bool.false_eq_true, if_false, if_neg hlim', if_pos havail, hm]
      simp
  refine ⟨hmain.1, hmain.2.1, hmain.2.2.1, hmain.2.2.2, ?_⟩
  intro swapRequests0 dist0 k hk
  by_cases h1 : session.maxSwapRequests ≤ countSwapRequests swapRequests0 u.id session.id
  · simp only [studentRequestNewThought, hc, hs, hp, bne_self_eq_false,
      Bool.false_eq_true, if_false, if_pos h1]
  · by_cases h2 : 0 < ((thoughts.filter
        (fun t => t.promptUseId == promptUse.id && t.authorId != u.id)).filter
        (fun t => t.content != cur)).length
    · cases dist0 with
      | none =>
        simp only [studentRequestNewThought, hc, hs, hp, bne_self_eq_false,
          Bool.false_eq_true, if_false, if_neg h1, if_pos h2]
      | some m =>
        by_cases hm : (m socketId).isSome
        · simp only [studentRequestNewThought, hc, hs, hp, bne_self_eq_false,
            Bool.false_eq_true, if_false, if_neg h1, if_pos h2, hm, if_true,
            distLookup, DistMap.setEntry]
          rw [if_neg hk]
        · simp only [studentRequestNewThought, hc, hs, hp, bne_self_eq_false,
            Bool.false_eq_true, if_false, if_neg h1, if_pos h2, hm]
    · simp only [studentRequestNewThought, hc, hs, hp, bne_self_eq_false,
        Bool.false_eq_true, if_false, if_neg h1, if_neg h2]

/-- Witness for C9: quota 1, no prior request, one eligible thought, and an
absent room record. -/
theorem studentRequest_missing_entry_frame_witness :
    let out := studentRequestNewThought
      (some ⟨"u1", "s@example.edu", "S", "STUDENT", "c", "t", false⟩) "STUDENT"
      "ABC123" "X" [⟨"c1", "ABC123", "T", "t1"⟩] [⟨"se1", "c1", "ACTIVE", 1⟩]
      [⟨"p1", "se1", "Why?", "TEXT", []⟩] [] [⟨"t1", "p1", "u2", "B"⟩]
      (fun _ => "N") none "s1" "S" 0
    out.1 = [] ++ [("u1", "se1")] ∧
    (∃ c, SEv.receiveSwap c ∈ out.2.2) ∧
    out.2.1 = none ∧
    SEv.distributionUpdate ∉ out.2.2 ∧
    (∀ (swapRequests0 : List (String × String)) (dist0 : Option DistMap) (k : String),
      k ≠ "s1" →
      distLookup ((studentRequestNewThought
          (some ⟨"u1", "s@example.edu", "S", "STUDENT", "c", "t", false⟩) "STUDENT"
          "ABC123" "X" [⟨"c1", "ABC123", "T", "t1"⟩] [⟨"se1", "c1", "ACTIVE", 1⟩]
          [⟨"p1", "se1", "Why?", "TEXT", []⟩] swapRequests0 [⟨"t1", "p1", "u2", "B"⟩]
          (fun _ => "N") dist0 "s1" "S" 0).2.1) k = distLookup dist0 k) :=
  studentRequest_missing_entry_frame
    ⟨"u1", "s@example.edu", "S", "STUDENT", "c", "t", false⟩ "ABC123" "X"
    [⟨"c1", "ABC123", "T", "t1"⟩] [⟨"se1", "c1", "ACTIVE", 1⟩]
    [⟨"p1", "se1", "Why?", "TEXT", []⟩] [] [⟨"t1", "p1", "u2", "B"⟩]
    (fun _ => "N") none "s1" "S" 0 ⟨"c1", "ABC123", "T", "t1"⟩
    ⟨"se1", "c1", "ACTIVE", 1⟩ ⟨"p1", "se1", "Why?", "TEXT", []⟩
    (by decide) (by decide) (by decide) (by decide) (by decide) rfl

/-! ### The TEACHER_SEND_PROMPT handler (claim C8) -/

/-- The room record with no entries (`roomAssignments[joinCode] = {}`). -/
def emptyDistMap : DistMap := fun _ => none

/-- The `TEACHER_SEND_PROMPT` handler: teacher guard, course and active
session lookups, then — with no validation of `content`, `type` or
`options` — `prisma.promptUse.create`, `roomAssignments[joinCode] = {}`,
broadcast of `NEW_PROMPT` and an empty `THOUGHTS_UPDATE`.  `assignRooms` is
the global `roomAssignments` record, keyed by join code. -/
def teacherSendPrompt (user : Option User) (role : String)
    (joinCode content ptype : String) (options : List String) (newId : String)
    (courses : List Course) (sessions : List Session)
    (promptUses : List PromptUse) (assignRooms : String → Option DistMap) :
    List PromptUse × (String → Option DistMap) × List SEv :=
  match user with
  | none => (promptUses, assignRooms, [])
  | some _ =>
    if role != "TEACHER" then (promptUses, assignRooms, [])
    else
      match findCourseByJoinCode courses joinCode with
      | none => (promptUses, assignRooms, [])
      | some course =>
        match findActiveSession sessions course.id with
        | none => (promptUses, assignRooms, [])
        | some session =>
          (promptUses ++ [⟨newId, session.id, content, ptype, options⟩],
           fun k => if k = joinCode then some emptyDistMap else assignRooms k,
           [SEv.newPrompt content newId ptype options, SEv.thoughtsUpdateEmpty])

/-- C8 counterexample: an empty `content` (an invalid payload by the claim)
still appends a `PromptUse` and broadcasts `NEW_PROMPT`; the emitted events
are exactly `NEW_PROMPT` and the empty `THOUGHTS_UPDATE` — no `ERROR`. -/
theorem sendPrompt_no_validation_counterexample :
    (teacherSendPrompt (some ⟨"t1", "t@example.edu", "T", "TEACHER", "c", "t", false⟩)
        "TEACHER" "ABC123" "" "TEXT" [] "p9" [⟨"c1", "ABC123", "T", "t1"⟩]
        [⟨"se1", "c1", "ACTIVE", 1⟩] [] (fun _ => none)).1 =
      [⟨"p9", "se1", "", "TEXT", []⟩] ∧
    (teacherSendPrompt (some ⟨"t1", "t@example.edu", "T", "TEACHER", "c", "t", false⟩)
        "TEACHER" "ABC123" "" "TEXT" [] "p9" [⟨"c1", "ABC123", "T", "t1"⟩]
        [⟨"se1", "c1", "ACTIVE", 1⟩] [] (fun _ => none)).2.2 =
      [SEv.newPrompt "" "p9" "TEXT" [], SEv.thoughtsUpdateEmpty] := by
  decide

/-- C8 amended: `TEACHER_SEND_PROMPT` performs no payload validation.  For
every payload — empty content, MC with any number of options — once the
teacher guard and the course/session lookups succeed, exactly one
`PromptUse` is appended, the room's distribution record is cleared,
`NEW_PROMPT` is broadcast, and no `ERROR` is emitted; other rooms'
distribution records are untouched. -/
theorem sendPrompt_appends_unconditionally (u : User)
    (joinCode content ptype : String) (options : List String) (newId : String)
    (courses : List Course) (sessions : List Session)
    (promptUses : List PromptUse) (assignRooms : String → Option DistMap)
    (course : Course) (session : Session)
    (hc : findCourseByJoinCode courses joinCode = some course)
    (hs : findActiveSession sessions course.id = some session) :
    let out := teacherSendPrompt (some u) "TEACHER" joinCode content ptype options
      newId courses sessions promptUses assignRooms
    out.1 = promptUses ++ [⟨newId, session.id, content, ptype, options⟩] ∧
    out.2.1 joinCode = some emptyDistMap ∧
    (∀ k, k ≠ joinCode → out.2.1 k = assignRooms k) ∧
    SEv.newPrompt content newId ptype options ∈ out.2.2 ∧
    (∀ m, SEv.errorMsg m ∉ out.2.2) := by
  intro out
  have hout : out = (promptUses ++ [⟨newId, session.id, content, ptype, options⟩],
      fun k => if k = joinCode then some emptyDistMap else assignRooms k,
      [SEv.newPrompt content newId ptype options, SEv.thoughtsUpdateEmpty]) := by
    simp only [out, teacherSendPrompt, hc, hs, bne_self_eq_false,
      Bool.false_eq_true, if_false]
  rw [hout]
  refine ⟨rfl, by simp, fun k hk => by simp [hk], by simp, by simp⟩

/-- Witness for the amended C8, at the empty-content payload. -/
theorem sendPrompt_appends_unconditionally_witness :
    let out := teacherSendPrompt
      (some ⟨"t1", "t@example.edu", "T", "TEACHER", "c", "t", false⟩) "TEACHER"
      "ABC123" "" "MC" ["only-one"] "p9" [⟨"c1", "ABC123", "T", "t1"⟩]
      [⟨"se1", "c1", "ACTIVE", 1⟩] [] (fun _ => none)
    out.1 = [] ++ [⟨"p9", "se1", "", "MC", ["only-one"]⟩] ∧
    out.2.1 "ABC123" = some emptyDistMap ∧
    (∀ k, k ≠ "ABC123" → out.2.1 k = (fun _ => none : String → Option DistMap) k) ∧
    SEv.newPrompt "" "p9" "MC" ["only-one"] ∈ out.2.2 ∧
    (∀ m, SEv.errorMsg m ∉ out.2.2) :=
  sendPrompt_appends_unconditionally
    ⟨"t1", "t@example.edu", "T", "TEACHER", "c", "t", false⟩ "ABC123" "" "MC"
    ["only-one"] "p9" [⟨"c1", "ABC123", "T", "t1"⟩] [⟨"se1", "c1", "ACTIVE", 1⟩]
    [] (fun _ => none) ⟨"c1", "ABC123", "T", "t1"⟩ ⟨"se1", "c1", "ACTIVE", 1⟩
    (by decide) (by decide)

/-! ### The UPDATE_SESSION_SETTINGS handler (claim C10) -/

/-- `parseInt(maxSwapRequests) || 1`: `parseInt` yields either an integer or
`NaN` (modelled `none`); `NaN` and `0` are falsy, so the fallback `1` is
used for both. -/
def jsParseIntOr1 (v : Option Int) : Int :=
  match v with
  | none => 1
  | some 0 => 1
  | some n => n

/-- The `UPDATE_SESSION_SETTINGS` handler: teacher guard, course and active
session lookups, then `prisma.session.update` setting `maxSwapRequests` to
`parseInt(maxSwapRequests) || 1`. -/
def updateSessionSettings (user : Option User) (role joinCode : String)
    (parsed : Option Int) (courses : List Course) (sessions : List Session) :
    List Session :=
  match user with
  | none => sessions
  | some _ =>
    if role != "TEACHER" then sessions
    else
      match findCourseByJoinCode courses joinCode with
      | none => sessions
      | some course =>
        match findActiveSession sessions course.id with
        | none => sessions
        | some session =>
          sessions.map (fun s =>
            if s.id == session.id then { s with maxSwapRequests := jsParseIntOr1 parsed }
            else s)

/-- C10: with the teacher guard and lookups satisfied, the active session's
`maxSwapRequests` becomes the integer parse when that parse is a nonzero
number and `1` when the parse is `0` or not a number; the stored quota is
never `0`. -/
theorem updateSessionSettings_spec (u : User) (joinCode : String)
    (parsed : Option Int) (courses : List Course) (sessions : List Session)
    (course : Course) (session : Session)
    (hc : findCourseByJoinCode courses joinCode = some course)
    (hs : findActiveSession sessions course.id = some session) :
    (∀ n : Int, parsed = some n → n ≠ 0 → jsParseIntOr1 parsed = n) ∧
    ((parsed = some 0 ∨ parsed = none) → jsParseIntOr1 parsed = 1) ∧
    jsParseIntOr1 parsed ≠ 0 ∧
    updateSessionSettings (some u) "TEACHER" joinCode parsed courses sessions =
      sessions.map (fun s =>
        if s.id == session.id then { s with maxSwapRequests := jsParseIntOr1 parsed }
        else s) := by
  refine ⟨?_, ?_, ?_, ?_⟩
  · intro n hn hnz
    subst hn
    cases n with
    | ofNat m => cases m with
      | zero => exact absurd rfl hnz
      | succ k => rfl
    | negSucc m => rfl
  · rintro (h | h) <;> subst h <;> rfl
  · cases h : parsed with
    | none => simp [jsParseIntOr1]
    | some n =>
      by_cases hn : n = 0
      · subst hn; simp [jsParseIntOr1]
      · have he : jsParseIntOr1 (some n) = n := by
          cases n with
          | ofNat m => cases m with
            | zero => exact absurd rfl hn
            | succ k => rfl
          | negSucc m => rfl
        rw [he]; exact hn
  · simp only [updateSessionSettings, hc, hs, bne_self_eq_false,
      Bool.false_eq_true, if_false]

/-- Witness for C10: parsing `0` against a live session stores `1`. -/
theorem updateSessionSettings_spec_witness :
    ((∀ n : Int, (some 0 : Option Int) = some n → n ≠ 0 → jsParseIntOr1 (some 0) = n) ∧
    (((some 0 : Option Int) = some 0 ∨ (some 0 : Option Int) = none) →
      jsParseIntOr1 (some 0) = 1) ∧
    jsParseIntOr1 (some 0) ≠ 0 ∧
    updateSessionSettings (some ⟨"t1", "t@example.edu", "T", "TEACHER", "c", "t", false⟩)
        "TEACHER" "ABC123" (some 0) [⟨"c1", "ABC123", "T", "t1"⟩]
        [⟨"se1", "c1", "ACTIVE", 5⟩] =
      [⟨"se1", "c1", "ACTIVE", 5⟩].map (fun s =>
        if s.id == (⟨"se1", "c1", "ACTIVE", 5⟩ : Session).id then
          { s with maxSwapRequests := jsParseIntOr1 (some 0) }
        else s)) :=
  updateSessionSettings_spec ⟨"t1", "t@example.edu", "T", "TEACHER", "c", "t", false⟩
    "ABC123" (some 0) [⟨"c1", "ABC123", "T", "t1"⟩] [⟨"se1", "c1", "ACTIVE", 5⟩]
    ⟨"c1", "ABC123", "T", "t1"⟩ ⟨"se1", "c1", "ACTIVE", 5⟩ (by decide) (by decide)

/-! ### The TEACHER_START_CLASS handler (claim C7) -/

/-- `const chars = 'ABCDEFGHIJKLMNOPQRSTUVWXYZ0123456789';` -/
def roomCodeChars : List Char :=
  "ABCDEFGHIJKLMNOPQRSTUVWXYZ0123456789".data

/-- `generateRoomCode`: six draws of
`chars.charAt(Math.floor(Math.random() * chars.length))`, appended in order.
`rand i % roomCodeChars.length` is the `i`-th draw (the fallback of `getD`
is never used: the index is always in bounds). -/
def generateRoomCode (rand : Nat → Nat) : String :=
  String.mk ((List.range 6).map
    (fun i => roomCodeChars.getD (rand i % roomCodeChars.length) 'A'))

/-- The collision-retry loop of `TEACHER_START_CLASS`:
`let joinCode = generateRoomCode(); let attempts = 0;
while ((await prisma.course.findUnique({where:{joinCode}})) && attempts < 10)
{ joinCode = generateRoomCode(); attempts++; }`.
`taken` is store membership (the `findUnique` truthiness), `codes k` the
`k`-th generated code, `n` the `attempts` counter.  Fuel `11` bounds the at
most `1 + 10` codes the loop can examine, so it never runs out. -/
def pickJoinCode (taken : String → Bool) (codes : Nat → String) :
    Nat → Nat → String
  | 0, n => codes n
  | fuel + 1, n =>
    if taken (codes n) ∧ n < 10 then pickJoinCode taken codes fuel (n + 1)
    else codes n

/-- The `TEACHER_START_CLASS` handler: teacher guard, the retry loop, then
`prisma.course.create` and `prisma.session.create`
(`status: 'ACTIVE', maxSwapRequests: 1`), `CLASS_STARTED`.  The `courses`
table carries a unique index on `joinCode`
(migration `20251119224750_add_user_model`), so when the loop exits with a
still-colliding code the `create` call throws; the handler has no
`try/catch`, hence nothing is created and no event is emitted. -/
def teacherStartClass (user : Option User) (role : String) (taken : String → Bool)
    (codes : Nat → String) (newCourseId newSessionId title : String)
    (courses : List Course) (sessions : List Session) :
    Option (Course × Session) × List Course × List Session × List SEv :=
  match user with
  | none => (none, courses, sessions, [])
  | some u =>
    if role != "TEACHER" then (none, courses, sessions, [])
    else
      let joinCode := pickJoinCode taken codes 11 0
      if taken joinCode then (none, courses, sessions, [])
      else
        let course : Course := ⟨newCourseId, joinCode, title, u.id⟩
        let session : Session := ⟨newSessionId, newCourseId, "ACTIVE", 1⟩
        (some (course, session), courses ++ [course], sessions ++ [session],
         [SEv.classStarted joinCode newSessionId 1])

theorem pickJoinCode_all_taken (taken : String → Bool) (codes : Nat → String)
    (hall : ∀ k, k ≤ 10 → taken (codes k) = true) :
    ∀ fuel n, n ≤ 10 → taken (pickJoinCode taken codes fuel n) = true := by
  intro fuel
  induction fuel with
  | zero => intro n hn; exact hall n hn
  | succ f ih =>
    intro n hn
    by_cases hcond : taken (codes n) = true ∧ n < 10
    · simp only [pickJoinCode, if_pos hcond]
      exact ih (n + 1) hcond.2
    · simp only [pickJoinCode, if_neg hcond]
      exact hall n hn

theorem pickJoinCode_first_fresh (taken : String → Bool) (codes : Nat → String)
    (m : Nat) (hm : m ≤ 10) (hfresh : taken (codes m) = false)
    (hbefore : ∀ k, k < m → taken (codes k) = true) :
    ∀ fuel n, n ≤ m → m ≤ n + fuel → pickJoinCode taken codes fuel n = codes m := by
  intro fuel
  induction fuel with
  | zero =>
    intro n hn hmn
    have hnm : n = m := by omega
    rw [hnm]
    rfl
  | succ f ih =>
    intro n hn hmn
    by_cases hnm : n = m
    · subst hnm
      have hcond : ¬ (taken (codes n) = true ∧ n < 10) := by
        rw [hfresh]; simp
      simp only [pickJoinCode, if_neg hcond]
    · have hlt : n < m := Nat.lt_of_le_of_ne hn hnm
      have hcond : taken (codes n) = true ∧ n < 10 :=
        ⟨hbefore n hlt, by omega⟩
      simp only [pickJoinCode, if_pos hcond]
      exact ih (n + 1) (by omega) (by omega)

/-- C7: `generateRoomCode` yields exactly 6 characters, each from the
36-symbol set `A–Z0–9`, and two runs yield the same code exactly when every
one of the six draws agrees modulo 36 (the symbol list has no duplicates, so
uniform draws give uniform codes).  If the first-generated code and all 10
retries collide with the store, `TEACHER_START_CLASS` creates no course and
no session and emits nothing; and if the `m`-th generated code (`m ≤ 10`) is
the first fresh one, the course is created with exactly that code. -/
theorem startClass_join_code_spec (rand r1 r2 : Nat → Nat)
    (taken : String → Bool) (codes : Nat → String) (u : User)
    (newCourseId newSessionId title : String)
    (courses : List Course) (sessions : List Session)
    (hall : ∀ k, k ≤ 10 → taken (codes k) = true) :
    (generateRoomCode rand).length = 6 ∧
    (∀ c ∈ (generateRoomCode rand).data, c ∈ roomCodeChars) ∧
    roomCodeChars.Nodup ∧ roomCodeChars.length = 36 ∧
    (generateRoomCode r1 = generateRoomCode r2 ↔
      ∀ i, i < 6 → r1 i % 36 = r2 i % 36) ∧
    teacherStartClass (some u) "TEACHER" taken codes newCourseId newSessionId title
      courses sessions = (none, courses, sessions, []) ∧
    (∀ (tk : String → Bool) (cs : Nat → String) (m : Nat), m ≤ 10 →
      tk (cs m) = false → (∀ k, k < m → tk (cs k) = true) →
      teacherStartClass (some u) "TEACHER" tk cs newCourseId newSessionId title
          courses sessions =
        (some (⟨newCourseId, cs m, title, u.id⟩, ⟨newSessionId, newCourseId, "ACTIVE", 1⟩),
         courses ++ [⟨newCourseId, cs m, title, u.id⟩],
         sessions ++ [⟨newSessionId, newCourseId, "ACTIVE", 1⟩],
         [SEv.classStarted (cs m) newSessionId 1])) := by
  have hlen36 : roomCodeChars.length = 36 := by decide
  have hmemD : ∀ idx : Nat, idx < roomCodeChars.length →
      roomCodeChars.getD idx 'A' ∈ roomCodeChars := by
    intro idx hidx
    rw [List.getD_eq_getElem?_getD, List.getElem?_eq_getElem hidx]
    exact List.getElem_mem hidx
  have hgetD : ∀ (r : Nat → Nat) (i : Nat),
      (generateRoomCode r).data[i]? =
        ((List.range 6).map
          (fun i => roomCodeChars.getD (r i % roomCodeChars.length) 'A'))[i]? := by
    intro r i; rfl
  refine ⟨by simp [generateRoomCode, String.length], ?_, by decide, hlen36, ?_, ?_, ?_⟩
  · intro c hc
    have : c ∈ (List.range 6).map
        (fun i => roomCodeChars.getD (rand i % roomCodeChars.length) 'A') := hc
    obtain ⟨i, hi, hic⟩ := List.mem_map.mp this
    rw [← hic]
    exact hmemD _ (Nat.mod_lt _ (by rw [hlen36]; omega))
  · constructor
    · intro h i hi
      have hdata : ((List.range 6).map
            (fun i => roomCodeChars.getD (r1 i % roomCodeChars.length) 'A')) =
          ((List.range 6).map
            (fun i => roomCodeChars.getD (r2 i % roomCodeChars.length) 'A')) :=
        congrArg String.data h
      have hi' : i < ((List.range 6).map
          (fun i => roomCodeChars.getD (r1 i % roomCodeChars.length) 'A')).length := by
        simp [hi]
      have heq : some (roomCodeChars.getD (r1 i % roomCodeChars.length) 'A') =
          some (roomCodeChars.getD (r2 i % roomCodeChars.length) 'A') := by
        have h1 := congrArg (fun l => l[i]?) hdata
        simpa [List.getElem?_map, List.getElem?_range, hi] using h1
      have hchar : roomCodeChars.getD (r1 i % roomCodeChars.length) 'A' =
          roomCodeChars.getD (r2 i % roomCodeChars.length) 'A' :=
        Option.some.inj heq
      have hb1 : r1 i % roomCodeChars.length < roomCodeChars.length :=
        Nat.mod_lt _ (by rw [hlen36]; omega)
      have hb2 : r2 i % roomCodeChars.length < roomCodeChars.length :=
        Nat.mod_lt _ (by rw [hlen36]; omega)
      rw [List.getD_eq_getElem?_getD, List.getElem?_eq_getElem hb1,
        List.getD_eq_getElem?_getD, List.getElem?_eq_getElem hb2] at hchar
      simp only [Option.getD_some] at hchar
      have hinj := (List.Nodup.getElem_inj_iff
        (show roomCodeChars.Nodup by decide)).mp hchar
      rw [hlen36] at hinj
      exact hinj
    · intro h
      unfold generateRoomCode
      congr 1
      apply List.map_congr_left
      intro i hi
      rw [hlen36, h i (List.mem_range.mp hi)]
  · have htaken := pickJoinCode_all_taken taken codes hall 11 0 (by omega)
    simp only [teacherStartClass, bne_self_eq_false, Bool.false_eq_true, if_false,
      htaken, if_true]
  · intro tk cs m hm hfresh hbefore
    have hpick : pickJoinCode tk cs 11 0 = cs m :=
      pickJoinCode_first_fresh tk cs m hm hfresh hbefore 11 0 (by omega) (by omega)
    simp only [teacherStartClass, bne_self_eq_false, Bool.false_eq_true, if_false,
      hpick, hfresh]

/-- Witness for C7: a store where every generated code collides (`taken`
constantly true). -/
theorem startClass_join_code_spec_witness :
    (generateRoomCode (fun _ => 0)).length = 6 ∧
    (∀ c ∈ (generateRoomCode (fun _ => 0)).data, c ∈ roomCodeChars) ∧
    roomCodeChars.Nodup ∧ roomCodeChars.length = 36 ∧
    (generateRoomCode (fun _ => 0) = generateRoomCode (fun _ => 0) ↔
      ∀ i, i < 6 → (fun _ => 0 : Nat → Nat) i % 36 = (fun _ => 0 : Nat → Nat) i % 36) ∧
    teacherStartClass (some ⟨"t1", "t@example.edu", "T", "TEACHER", "c", "t", false⟩)
      "TEACHER" (fun _ => true) (fun _ => "AAAAAA") "c9" "se9" "T Class"
      [⟨"c1", "AAAAAA", "T", "t1"⟩] [] =
      (none, [⟨"c1", "AAAAAA", "T", "t1"⟩], [], []) ∧
    (∀ (tk : String → Bool) (cs : Nat → String) (m : Nat), m ≤ 10 →
      tk (cs m) = false → (∀ k, k < m → tk (cs k) = true) →
      teacherStartClass (some ⟨"t1", "t@example.edu", "T", "TEACHER", "c", "t", false⟩)
          "TEACHER" tk cs "c9" "se9" "T Class" [⟨"c1", "AAAAAA", "T", "t1"⟩] [] =
        (some (⟨"c9", cs m, "T Class", "t1"⟩, ⟨"se9", "c9", "ACTIVE", 1⟩),
         [⟨"c1", "AAAAAA", "T", "t1"⟩] ++ [⟨"c9", cs m, "T Class", "t1"⟩],
         [] ++ [⟨"se9", "c9", "ACTIVE", 1⟩],
         [SEv.classStarted (cs m) "se9" 1])) :=
  startClass_join_code_spec (fun _ => 0) (fun _ => 0) (fun _ => 0)
    (fun _ => true) (fun _ => "AAAAAA")
    ⟨"t1", "t@example.edu", "T", "TEACHER", "c", "t", false⟩ "c9" "se9" "T Class"
    [⟨"c1", "AAAAAA", "T", "t1"⟩] [] (fun _ _ => rfl)

end ThoughtSwap
